import Mathlib

/-!
Verification of the CEFI data MCP server (NOAA-CEFI-Portal/cefi_data_mcp_server).

Shallow embedding of the matcher `is_match`, the cached tree navigator
`get_level_options` / `get_level_name` (src/mcp_cefi_data_info.py), the tools
`get_subdomain_options` (src/mcp_cefi_data_query.py) and `get_available_data`
(src/mcp_cefi_analysis.py), and the THREDDS crawler `find_all_files_thredds`
(src/cefi_thredds_crawl.py).

Python dictionaries become ordered association lists; Python exceptions become
an explicit `Except PyErr` result; the remote HTTP fetches become function
parameters (a fetch that may fail is `String → Option _`).
-/

/-- Python exception kinds that the embedded code can raise. -/
inductive PyErr where
  | typeError
  | keyError
  | valueError
  | attributeError
deriving DecidableEq, Repr

/-- Python `str.lower()` (ASCII case folding; the tree keys are ASCII). -/
def lower (s : String) : String := ⟨s.data.map Char.toLower⟩

/-- Python substring test `needle in hay` on code points. -/
def containsSub : List Char → List Char → Bool
  | [], needle => needle.isEmpty
  | c :: hay, needle => List.isPrefixOf needle (c :: hay) || containsSub hay needle

/-!
Model of `difflib.SequenceMatcher(None, a, b).ratio()` as used by `is_match`.
The junk heuristic is omitted: with `None` as the junk predicate it only
activates for sequences of length ≥ 200 (autojunk), far beyond the tree keys.
`flmInner` is one row of `find_longest_match`'s dynamic program (`j2len` is the
previous row), `flmOuter` iterates the rows, `matchSum` adds up the sizes of
the matching blocks, and `ratioQ` is `2.0 * matches / (len(a) + len(b))`.
-/

/-- Inner loop of `find_longest_match`: scan `j` over `[blo, blo+steps)`. -/
def flmInner (aChar : Char) (b : List Char) (i : Nat) (j2len : List (Nat × Nat)) :
    Nat → Nat → List (Nat × Nat) → Nat × Nat × Nat → List (Nat × Nat) × (Nat × Nat × Nat)
  | _, 0, acc, best => (acc, best)
  | j, steps+1, acc, best =>
    if b.getD j ' ' = aChar then
      let k := (if j = 0 then 0 else (j2len.lookup (j-1)).getD 0) + 1
      let best' := if best.2.2 < k then (i + 1 - k, j + 1 - k, k) else best
      flmInner aChar b i j2len (j+1) steps ((j, k) :: acc) best'
    else
      flmInner aChar b i j2len (j+1) steps acc best

/-- Outer loop of `find_longest_match`: scan `i` over `[alo, alo+steps)`. -/
def flmOuter (a b : List Char) (blo bhi : Nat) :
    Nat → Nat → List (Nat × Nat) → Nat × Nat × Nat → Nat × Nat × Nat
  | _, 0, _, best => best
  | i, steps+1, j2len, best =>
    let r := flmInner (a.getD i ' ') b i j2len blo (bhi - blo) [] best
    flmOuter a b blo bhi (i+1) steps r.1 r.2

/-- `SequenceMatcher.find_longest_match` on `a[alo:ahi]` and `b[blo:bhi]`. -/
def find_longest_match (a b : List Char) (alo ahi blo bhi : Nat) : Nat × Nat × Nat :=
  flmOuter a b blo bhi alo (ahi - alo) [] (alo, blo, 0)

/-- Total size of the matching blocks (`get_matching_blocks`), fuel-bounded;
the fuel passed by `ratioQ` exceeds the recursion depth. -/
def matchSum (a b : List Char) : Nat → Nat → Nat → Nat → Nat → Nat
  | 0, _, _, _, _ => 0
  | fuel+1, alo, ahi, blo, bhi =>
    let m := find_longest_match a b alo ahi blo bhi
    if m.2.2 = 0 then 0
    else m.2.2 + matchSum a b fuel alo m.1 blo m.2.1
               + matchSum a b fuel (m.1 + m.2.2) ahi (m.2.1 + m.2.2) bhi

/-- `SequenceMatcher(None, x, y).ratio()` as the exact fraction
`(2 * matches, len(x) + len(y))`, kept unreduced as numerator and denominator
(and `1.0 = (1, 1)` when both strings are empty, as in
`difflib._calculate_ratio`).  Keeping the fraction as a pair of naturals and
comparing by cross-multiplication (`ratioLt`) realizes exactly the rational
ordering that the Python float comparisons compute. -/
def ratioPair (x y : String) : Nat × Nat :=
  let a := x.data
  let b := y.data
  let total := a.length + b.length
  if total = 0 then (1, 1)
  else (2 * matchSum a b (total + 1) 0 a.length 0 b.length, total)

/-- Strict `<` on similarity fractions by cross-multiplication. -/
def ratioLt (p q : Nat × Nat) : Bool := decide (p.1 * q.2 < q.1 * p.2)

/-- The fuzzy-match threshold `0.6` of `is_match`, as the fraction `3/5`. -/
def fuzzyThresholdPair : Nat × Nat := (3, 5)

/-- Body of the fuzzy loop of `is_match`:
`if ratio > 0.6 and ratio > best_score: best_score, best_match = ratio, candidate`;
`best_score` starts at `0.0 = (0, 1)`. -/
def fuzzyStep (query_lower : String) (acc : Option String × (Nat × Nat)) (candidate : String) :
    Option String × (Nat × Nat) :=
  let r := ratioPair query_lower (lower candidate)
  if ratioLt fuzzyThresholdPair r && ratioLt acc.2 r then (some candidate, r) else acc

/-- `is_match` from src/mcp_cefi_data_info.py: first the partial
(case-insensitive substring) pass over the candidates, then the fuzzy pass. -/
def is_match (query : String) (candidates : List String) : Option String :=
  let query_lower := lower query
  match candidates.find? (fun candidate => containsSub (lower candidate).data query_lower.data) with
  | some candidate => some candidate
  | none => (candidates.foldl (fuzzyStep query_lower) (none, (0, 1))).1

/-- Value of a similarity fraction in `ℚ` (for specification statements). -/
def ratioVal (p : Nat × Nat) : ℚ := (p.1 : ℚ) / (p.2 : ℚ)

/-- The similarity ratio of `SequenceMatcher(None, x, y)` as a rational. -/
def ratioQ (x y : String) : ℚ := ratioVal (ratioPair x y)

/-- The fuzzy-match threshold `0.6` as a rational. -/
def fuzzyThreshold : ℚ := 3/5

/-!
The CEFI data tree (`dict_level_options` in src/mcp_cefi_data_info.py,
`dict_data_tree` in src/mcp_cefi_data_query.py): a nested JSON object, embedded
as an insertion-ordered association list of string keys.  `load_cefi_data_tree`
catches every failure of the HTTP fetch and returns `None`, so its result is an
`Option DataTree` and is passed in as the `loadResult` parameter of the functions
that the source lets call it.
-/

/-- A nested JSON-object tree with insertion-ordered string keys. -/
inductive DataTree where
  | node : List (String × DataTree) → DataTree

/-- `d.keys()` of a tree node, in insertion order. -/
def keysOf : DataTree → List String
  | .node kvs => kvs.map Prod.fst

/-- Python `d[k]` as an optional lookup (first binding wins). -/
def lookupT : DataTree → String → Option DataTree
  | .node kvs, k => kvs.lookup k

/-- Python truthiness of a dict: empty dicts are falsy. -/
def treeFalsy : DataTree → Bool
  | .node kvs => kvs.isEmpty

/-- Subscripting a value that may be `None`: `None[k]` raises `TypeError`,
a missing key raises `KeyError`. -/
def subscriptO : Option DataTree → String → Except PyErr DataTree
  | none, _ => .error .typeError
  | some t, k =>
    match lookupT t k with
    | none => .error .keyError
    | some v => .ok v

/-- Subscripting a dict: a missing key raises `KeyError`. -/
def subscriptT (t : DataTree) (k : String) : Except PyErr DataTree :=
  match lookupT t k with
  | none => .error .keyError
  | some v => .ok v

/-- The sentinel string returned by the info tools when no data is available. -/
def noDataMsg : String := "No CEFI data available currently."

/-- A value returned by `check_cefi_data_cache`: Python `True` or a `str`. -/
inductive CheckRet where
  | pyTrue
  | str (s : String)

/-- Python truthiness test (`not ret`) on a `check_cefi_data_cache` result:
`True` is truthy, a string is falsy only when empty. -/
def retFalsy : CheckRet → Bool
  | .pyTrue => false
  | .str s => s.isEmpty

/-- `check_cefi_data_cache` from src/mcp_cefi_data_info.py.  `cache` is the
module global `dict_level_options` before the call and `loadResult` is what
`load_cefi_data_tree(CEFI_DATA_TREE_URL)` returns if the cache is cold.  On a
cold cache the source subscripts that result with
`['Projects']['CEFI']['regional_mom6']['cefi_portal']` before any `None` test,
then returns the no-data string if the tree is falsy, else `True`.  On success
the pair carries the tree now stored in the cache together with the returned
value. -/
def check_cefi_data_cache (cache loadResult : Option DataTree) : Except PyErr (DataTree × CheckRet) :=
  match cache with
  | some t => .ok (t, if treeFalsy t then CheckRet.str noDataMsg else CheckRet.pyTrue)
  | none =>
    (subscriptO loadResult "Projects").bind fun t1 =>
    (subscriptT t1 "CEFI").bind fun t2 =>
    (subscriptT t2 "regional_mom6").bind fun t3 =>
    (subscriptT t3 "cefi_portal").bind fun t =>
    .ok (t, if treeFalsy t then CheckRet.str noDataMsg else CheckRet.pyTrue)

/-- One level of `get_level_options`: `if arg is None: return "\n".join(keys)`,
otherwise resolve `arg` with `is_match`, return the failure message when no
candidate matches, and otherwise descend into the child (`d[key]`). -/
def levelStep (t : DataTree) (arg : Option String) (failMsg : String)
    (next : DataTree → Except PyErr String) : Except PyErr String :=
  match arg with
  | none => .ok (String.intercalate "\n" (keysOf t))
  | some q =>
    match is_match q (keysOf t) with
    | none => .ok failMsg
    | some k =>
      match lookupT t k with
      | none => .error .keyError
      | some child => next child

/-- `get_level_options` from src/mcp_cefi_data_info.py, with the module cache
and the remote load result made explicit.  Each level follows the source
verbatim via `levelStep`, top to bottom: region, subdomain, experiment_type,
output_frequency, grid_type, release_date, variable_catagory. -/
def get_level_options (cache loadResult : Option DataTree)
    (region subdomain experiment_type output_frequency grid_type release_date
      variable_catagory : Option String) : Except PyErr String :=
  match check_cefi_data_cache cache loadResult with
  | .error e => .error e
  | .ok (t, ret) =>
    if retFalsy ret then .ok noDataMsg
    else
      levelStep t region "No matching region found." fun t1 =>
      levelStep t1 subdomain "No matching subdomain found." fun t2 =>
      levelStep t2 experiment_type "No matching experiment type found." fun t3 =>
      levelStep t3 output_frequency "No matching output frequency found." fun t4 =>
      levelStep t4 grid_type "No matching grid type found." fun t5 =>
      levelStep t5 release_date "No matching release date found." fun t6 =>
      levelStep t6 variable_catagory "No matching variable category found." fun t7 =>
      .ok (String.intercalate "\n" (keysOf t7))

/-- The fixed level-name list set by `check_cefi_data_cache`. -/
def list_level_names : List String :=
  ["region", "subdomain", "experiment_type", "output_frequency", "grid_type",
   "release_date", "variable_catagory", "variable_name", "variable_short_name",
   "variable_file_name", "file_meta_data"]

/-- `get_level_name` from src/mcp_cefi_data_info.py. -/
def get_level_name (cache loadResult : Option DataTree) : Except PyErr String :=
  match check_cefi_data_cache cache loadResult with
  | .error e => .error e
  | .ok (_, ret) =>
    if retFalsy ret then .ok noDataMsg
    else .ok ("All the level category name from top to bottom\n" ++
      String.intercalate "\n" list_level_names)

/-- `get_subdomain_options` from src/mcp_cefi_data_query.py: subscripts the
module global `dict_data_tree` (no cache check inside the tool) and joins the
keys of `dict_data_tree[region]`. -/
def get_subdomain_options (dict_data_tree : Option DataTree) (region : String) :
    Except PyErr String :=
  match dict_data_tree with
  | none => .error .typeError
  | some t =>
    match lookupT t region with
    | none => .error .keyError
    | some sub => .ok (String.intercalate "\n" (keysOf sub))

/-!
src/mcp_cefi_analysis.py.  `get_opendap_data` and `get_cloud_data` catch every
exception of the external dataset-opening libraries and return `None`, so they
are modelled as parameters of type `String → Option α` (`α` is the dataset
type).  An argument of Python type `Optional[str]` is an `Option String`;
Python `not arg` is true exactly for `None` and `""`.
-/

/-- Python falsiness of an `Optional[str]` value: `None` or the empty string. -/
def strFalsy : Option String → Bool
  | none => true
  | some s => s.isEmpty

/-- `get_available_data` from src/mcp_cefi_analysis.py: raise `ValueError` when
all three arguments are falsy; otherwise try OPeNDAP (`isinstance(_, str)`),
then S3 (`isinstance(_, str)`), then GCS (truthiness), else return `None`. -/
def get_available_data {α : Type} (get_opendap_data : String → Option α)
    (get_cloud_data_s3 : String → Option α) (get_cloud_data_gcs : String → Option α)
    (opendap_url s3_object_link_kerchunk_index gcs_object_link_kerchunk_index :
      Option String) : Except PyErr (Option α) :=
  if strFalsy opendap_url && strFalsy s3_object_link_kerchunk_index &&
      strFalsy gcs_object_link_kerchunk_index then
    .error .valueError
  else
    match opendap_url with
    | some url => .ok (get_opendap_data url)
    | none =>
      match s3_object_link_kerchunk_index with
      | some link => .ok (get_cloud_data_s3 link)
      | none =>
        match gcs_object_link_kerchunk_index with
        | some link => if link.isEmpty then .ok none else .ok (get_cloud_data_gcs link)
        | none => .ok none

/-!
src/cefi_thredds_crawl.py.  The HTTP fetch plus XML parse of a catalog is a
parameter `fetch : String → Option CatalogDoc` (`none` when the fetch or the
parse fails — both are caught and the subtree abandoned); `urljoin` is a
parameter `join`.  String helpers that the crawler uses (`endswith`,
`rstrip("/")`, `str.replace`) are re-implemented over the character list so
that they evaluate by kernel reduction.
-/

/-- Python `s.endswith(suffix)`. -/
def strEndsWith (s suffix : String) : Bool := List.isSuffixOf suffix.data s.data

/-- Python `s.rstrip("/")`. -/
def rstripSlash (s : String) : String :=
  ⟨(s.data.reverse.dropWhile (· = '/')).reverse⟩

/-- Helper of `strReplace` (fuel-bounded; at most `|s|` steps are needed since
each step consumes at least one character of a non-empty pattern). -/
def replaceAux (pat rep : List Char) : Nat → List Char → List Char
  | 0, s => s
  | _+1, [] => []
  | fuel+1, c :: rest =>
    if List.isPrefixOf pat (c :: rest) then
      rep ++ replaceAux pat rep fuel (List.drop (pat.length - 1) rest)
    else
      c :: replaceAux pat rep fuel rest

/-- Python `s.replace(pat, rep)` for a non-empty pattern: replace every
non-overlapping occurrence, left to right. -/
def strReplace (s pat rep : String) : String :=
  if pat.data.isEmpty then s else ⟨replaceAux pat.data rep.data s.data.length s.data⟩

/-- An XML catalog document as the crawler reads it: the `urlPath` attributes
of its `dataset` elements and the `xlink:href` attributes of its `catalogRef`
elements (an absent attribute is the empty string / skipped). -/
structure CatalogDoc where
  urlPaths : List String
  refs : List String
deriving DecidableEq

/-- The crawl state of `find_all_files_thredds`: the `visited` set, the result
mapping (an insertion-ordered association list), and as instrumentation the
list of URLs passed to `client.get`, in fetch order. -/
structure CrawlState where
  visited : List String
  fetched : List String
  result : List (String × List String)
deriving DecidableEq

/-- The fixed access-protocol base the crawler joins `urlPath`s against. -/
def dodsBase : String := "https://psl.noaa.gov/thredds/dodsC/"

/-- The `.nc` entries of a catalog, rewritten to access URLs:
`urljoin("https://psl.noaa.gov/thredds/dodsC/", url_path)` for each `urlPath`
ending in `.nc`. -/
def ncUrlsOf (join : String → String → String) (doc : CatalogDoc) : List String :=
  (doc.urlPaths.filter (fun p => strEndsWith p ".nc")).map (fun p => join dodsBase p)

/-- The human-viewable catalog page of a catalog XML URL:
`catalog_xml_url.replace('/catalog.xml', '/catalog.html')`. -/
def htmlOf (u : String) : String := strReplace u "/catalog.xml" "/catalog.html"

/-- `visited.add(catalog_xml_url)` followed by the `client.get` attempt: the
URL enters the visited set and the fetch log. -/
def visitState (url : String) (st : CrawlState) : CrawlState :=
  ⟨url :: st.visited, st.fetched ++ [url], st.result⟩

/-- `if nc_urls: result[html_url] = nc_urls` — record the catalog page when at
least one `.nc` entry was found. -/
def recordState (join : String → String → String) (url : String) (doc : CatalogDoc)
    (st : CrawlState) : CrawlState :=
  if (ncUrlsOf join doc).isEmpty then st
  else ⟨st.visited, st.fetched, st.result ++ [(htmlOf url, ncUrlsOf join doc)]⟩

/-- The inner `recurse` of `find_all_files_thredds`, fuel-bounded: skip visited
URLs, record the fetch, abandon the subtree when the fetch/parse fails
(`fetch url = none` covers both the HTTP failure and the XML parse failure),
record the catalog in the result when it has `.nc` entries, then recurse into
each non-empty `catalogRef` href joined against the current URL. -/
def recurse (fetch : String → Option CatalogDoc) (join : String → String → String) :
    Nat → String → CrawlState → CrawlState
  | 0, _, st => st
  | fuel+1, url, st =>
    if url ∈ st.visited then st
    else
      match fetch url with
      | none => visitState url st
      | some doc =>
        doc.refs.foldl
          (fun s href => if href.isEmpty then s else recurse fetch join fuel (join url href) s)
          (recordState join url doc (visitState url st))

/-- Base-URL normalization of `find_all_files_thredds`: append `/catalog.xml`
when the given URL does not already end with `catalog.xml`. -/
def normalizeBase (u : String) : String :=
  if strEndsWith u "catalog.xml" then u else rstripSlash u ++ "/catalog.xml"

/-- Run the crawl from an empty state (the body of `find_all_files_thredds`). -/
def crawlRun (fetch : String → Option CatalogDoc) (join : String → String → String)
    (fuel : Nat) (base_catalog_url : String) : CrawlState :=
  recurse fetch join fuel (normalizeBase base_catalog_url) ⟨[], [], []⟩

/-- `find_all_files_thredds` from src/cefi_thredds_crawl.py: the result mapping
of the crawl. -/
def find_all_files_thredds (fetch : String → Option CatalogDoc)
    (join : String → String → String) (fuel : Nat) (base_catalog_url : String) :
    List (String × List String) :=
  (crawlRun fetch join fuel base_catalog_url).result

/-- The result entry a successfully crawled catalog URL contributes: `none`
when the fetch/parse failed or no `urlPath` ends in `.nc`, otherwise the
catalog page keyed list of access URLs. -/
def entryOf (fetch : String → Option CatalogDoc) (join : String → String → String)
    (u : String) : Option (String × List String) :=
  match fetch u with
  | none => none
  | some doc =>
    let nc := ncUrlsOf join doc
    if nc.isEmpty then none else some (htmlOf u, nc)

/-- Number of universe URLs not yet visited (termination measure). -/
def unvis (allUrls : List String) (st : CrawlState) : Nat :=
  (allUrls.filter (fun u => decide (u ∉ st.visited))).length

/-!
Specification-side definitions, written from the spec's words (§4.1) to be
compared with `is_match`.
-/

/-- Spec §4.1 step 1: the first candidate, in candidate iteration order, whose
lowercased form contains the lowercased query as a substring. -/
def firstSubstringMatch (query : String) (candidates : List String) : Option String :=
  candidates.find? (fun candidate => containsSub (lower candidate).data (lower query).data)

/-- Shorthand: the similarity ratio of the (already lowercased) query against
the lowercased candidate, as a rational. -/
abbrev rv (ql c : String) : ℚ := ratioVal (ratioPair ql (lower c))

/-- Spec §4.1 step 2: `c` is the fuzzy choice from `candidates` iff its ratio
exceeds the 0.6 threshold, every earlier candidate has a strictly smaller
ratio (ties keep the first-seen maximum), and no later candidate has a
strictly larger ratio. -/
def fuzzyChosen (query : String) (candidates : List String) (c : String) : Prop :=
  fuzzyThreshold < ratioQ (lower query) (lower c) ∧
  ∃ pre post, candidates = pre ++ c :: post ∧
    (∀ d ∈ pre, ratioQ (lower query) (lower d) < ratioQ (lower query) (lower c)) ∧
    (∀ d ∈ post, ratioQ (lower query) (lower d) ≤ ratioQ (lower query) (lower c))

/-!
Concrete fixtures used by the witness theorems.
-/

/-- A small concrete data tree. -/
def wTree : DataTree :=
  DataTree.node
    [("Atlantic", DataTree.node [("NWA", DataTree.node [("hindcast", DataTree.node [])])]),
     ("Pacific", DataTree.node [])]

/-- A two-node cyclic catalog graph: A references B and B references A. -/
def fetchAB : String → Option CatalogDoc := fun u =>
  if u = "A/catalog.xml" then some ⟨["f1.nc"], ["B/catalog.xml"]⟩
  else if u = "B/catalog.xml" then some ⟨[], ["A/catalog.xml"]⟩ else none

/-- URL join for the cyclic fixture: hrefs are already absolute. -/
def joinSnd : String → String → String := fun _ href => href

/-- The URL universe of the cyclic fixture. -/
def urlsAB : List String := ["A/catalog.xml", "B/catalog.xml"]

/-!
Lemmas about the matcher.
-/

lemma ratioPair_den_pos (x y : String) : 0 < (ratioPair x y).2 := by
  simp only [ratioPair]
  split
  · norm_num
  · next h => omega

lemma ratioLt_iff (p q : Nat × Nat) (hp : 0 < p.2) (hq : 0 < q.2) :
    ratioLt p q = true ↔ ratioVal p < ratioVal q := by
  rw [ratioLt, decide_eq_true_eq, ratioVal, ratioVal,
    div_lt_div_iff₀ (by exact_mod_cast hp) (by exact_mod_cast hq)]
  exact_mod_cast Iff.rfl

lemma ratioVal_threshold : ratioVal fuzzyThresholdPair = fuzzyThreshold := by
  norm_num [ratioVal, fuzzyThresholdPair, fuzzyThreshold]

lemma fuzzyThreshold_pos : (0 : ℚ) < fuzzyThreshold := by norm_num [fuzzyThreshold]

lemma ratioVal_zero : ratioVal (0, 1) = 0 := by norm_num [ratioVal]

/-- The loop body of the fuzzy pass, with its float comparisons rewritten as
the rational orderings they compute. -/
lemma fuzzyStep_eq (ql : String) (acc : Option String × (Nat × Nat)) (c : String)
    (hden : 0 < acc.2.2) :
    fuzzyStep ql acc c =
      if fuzzyThreshold < rv ql c ∧ ratioVal acc.2 < rv ql c
      then (some c, ratioPair ql (lower c)) else acc := by
  have hth : ratioLt fuzzyThresholdPair (ratioPair ql (lower c)) = true ↔
      fuzzyThreshold < rv ql c := by
    rw [ratioLt_iff _ _ (by norm_num [fuzzyThresholdPair]) (ratioPair_den_pos _ _),
      ratioVal_threshold]
  have hacc : ratioLt acc.2 (ratioPair ql (lower c)) = true ↔ ratioVal acc.2 < rv ql c :=
    ratioLt_iff _ _ hden (ratioPair_den_pos _ _)
  by_cases h : fuzzyThreshold < rv ql c ∧ ratioVal acc.2 < rv ql c
  · have hb : (ratioLt fuzzyThresholdPair (ratioPair ql (lower c)) &&
        ratioLt acc.2 (ratioPair ql (lower c))) = true := by
      rw [Bool.and_eq_true, hth, hacc]; exact h
    simp only [fuzzyStep, hb, if_true, if_pos h]
  · have hb : (ratioLt fuzzyThresholdPair (ratioPair ql (lower c)) &&
        ratioLt acc.2 (ratioPair ql (lower c))) = false := by
      rw [Bool.eq_false_iff, Ne, Bool.and_eq_true, hth, hacc]; exact h
    simp only [fuzzyStep, hb, Bool.false_eq_true, if_false, if_neg h]

/-- If every candidate in `cs` fails the threshold or does not beat the
current best score, the fuzzy loop leaves the accumulator unchanged. -/
lemma fuzzyFold_skip (ql : String) :
    ∀ (cs : List String) (b : Option String) (s : Nat × Nat), 0 < s.2 →
      (∀ d ∈ cs, rv ql d ≤ fuzzyThreshold ∨ rv ql d ≤ ratioVal s) →
      List.foldl (fuzzyStep ql) (b, s) cs = (b, s) := by
  intro cs
  induction cs with
  | nil => intro b s _ _; rfl
  | cons c rest IH =>
    intro b s hden hall
    have hneg : ¬(fuzzyThreshold < rv ql c ∧ ratioVal s < rv ql c) := by
      rcases hall c (List.mem_cons_self c rest) with h | h
      · exact fun hcon => absurd hcon.1 (not_lt.mpr h)
      · exact fun hcon => absurd hcon.2 (not_lt.mpr h)
    rw [List.foldl_cons, fuzzyStep_eq ql (b, s) c hden, if_neg hneg]
    exact IH b s hden (fun d hd => hall d (List.mem_cons_of_mem _ hd))

/-- The best score stays below any bound that dominates the initial score and
every candidate's ratio, and its denominator stays positive. -/
lemma fuzzyFold_bound (ql : String) :
    ∀ (cs : List String) (b : Option String) (s : Nat × Nat) (x : ℚ), 0 < s.2 →
      ratioVal s < x → (∀ d ∈ cs, rv ql d < x) →
      ratioVal (List.foldl (fuzzyStep ql) (b, s) cs).2 < x ∧
        0 < (List.foldl (fuzzyStep ql) (b, s) cs).2.2 := by
  intro cs
  induction cs with
  | nil => intro b s x hden hs _; exact ⟨hs, hden⟩
  | cons c rest IH =>
    intro b s x hden hs hall
    rw [List.foldl_cons, fuzzyStep_eq ql (b, s) c hden]
    by_cases hc : fuzzyThreshold < rv ql c ∧ ratioVal s < rv ql c
    · rw [if_pos hc]
      exact IH (some c) (ratioPair ql (lower c)) x (ratioPair_den_pos _ _)
        (hall c (List.mem_cons_self c rest)) (fun d hd => hall d (List.mem_cons_of_mem _ hd))
    · rw [if_neg hc]
      exact IH b s x hden hs (fun d hd => hall d (List.mem_cons_of_mem _ hd))

/-- Full characterization of the fuzzy loop from an arbitrary accumulator:
either no candidate is ever taken and the accumulator survives, or the result
is the first-seen candidate with the strictly highest ratio above both the
threshold and the initial score. -/
lemma fuzzyFold_characterize (ql : String) :
    ∀ (cs : List String) (b : Option String) (s : Nat × Nat), 0 < s.2 →
      (List.foldl (fuzzyStep ql) (b, s) cs = (b, s) ∧
        ∀ d ∈ cs, ¬(fuzzyThreshold < rv ql d ∧ ratioVal s < rv ql d)) ∨
      (∃ c pre post, cs = pre ++ c :: post ∧
        List.foldl (fuzzyStep ql) (b, s) cs = (some c, ratioPair ql (lower c)) ∧
        fuzzyThreshold < rv ql c ∧ ratioVal s < rv ql c ∧
        (∀ d ∈ pre, rv ql d < rv ql c) ∧
        (∀ d ∈ post, rv ql d ≤ rv ql c)) := by
  intro cs
  induction cs with
  | nil => intro b s hden; exact Or.inl ⟨rfl, by simp⟩
  | cons c rest IH =>
    intro b s hden
    rw [List.foldl_cons, fuzzyStep_eq ql (b, s) c hden]
    by_cases hc : fuzzyThreshold < rv ql c ∧ ratioVal s < rv ql c
    · rw [if_pos hc]
      rcases IH (some c) (ratioPair ql (lower c)) (ratioPair_den_pos _ _) with
        ⟨hf, hall⟩ | ⟨c', pre, post, hsplit, hf, h1, h2, h3, h4⟩
      · refine Or.inr ⟨c, [], rest, rfl, hf, hc.1, hc.2, by simp, ?_⟩
        intro d hd
        by_contra hlt
        rw [not_le] at hlt
        exact hall d hd ⟨lt_trans hc.1 hlt, hlt⟩
      · refine Or.inr ⟨c', c :: pre, post, by rw [hsplit, List.cons_append], hf, h1,
          lt_trans hc.2 h2, ?_, h4⟩
        intro d hd
        rcases List.mem_cons.mp hd with rfl | hd
        · exact h2
        · exact h3 d hd
    · rw [if_neg hc]
      rcases IH b s hden with ⟨hf, hall⟩ | ⟨c', pre, post, hsplit, hf, h1, h2, h3, h4⟩
      · refine Or.inl ⟨hf, ?_⟩
        intro d hd
        rcases List.mem_cons.mp hd with rfl | hd
        · exact hc
        · exact hall d hd
      · refine Or.inr ⟨c', c :: pre, post, by rw [hsplit, List.cons_append], hf, h1, h2, ?_, h4⟩
        intro d hd
        rcases List.mem_cons.mp hd with rfl | hd
        · rcases not_and_or.mp hc with h | h
          · exact lt_of_le_of_lt (not_lt.mp h) h1
          · exact lt_of_le_of_lt (not_lt.mp h) h2
        · exact h3 d hd

/-- Completeness of the fuzzy loop: the first-seen maximum above the threshold
is returned. -/
lemma fuzzyFold_picks (ql c : String) (pre post : List String)
    (hth : fuzzyThreshold < rv ql c)
    (hpre : ∀ d ∈ pre, rv ql d < rv ql c)
    (hpost : ∀ d ∈ post, rv ql d ≤ rv ql c) :
    List.foldl (fuzzyStep ql) (none, (0, 1)) (pre ++ c :: post) =
      (some c, ratioPair ql (lower c)) := by
  rw [List.foldl_append]
  have h0 : ratioVal ((0 : Nat), (1 : Nat)) < rv ql c := by
    rw [ratioVal_zero]; exact lt_trans fuzzyThreshold_pos hth
  obtain ⟨hlt, hden⟩ := fuzzyFold_bound ql pre none (0, 1) (rv ql c) (by norm_num) h0 hpre
  rw [List.foldl_cons, fuzzyStep_eq ql _ c hden, if_pos ⟨hth, hlt⟩]
  exact fuzzyFold_skip ql post (some c) (ratioPair ql (lower c)) (ratioPair_den_pos _ _)
    (fun d hd => Or.inr (hpost d hd))

/-- When the substring pass fails, `is_match` is the fuzzy loop. -/
lemma is_match_of_no_substring {query : String} {candidates : List String}
    (h : firstSubstringMatch query candidates = none) :
    is_match query candidates =
      (candidates.foldl (fuzzyStep (lower query)) (none, (0, 1))).1 := by
  simp only [is_match]
  rw [show (candidates.find? fun candidate =>
    containsSub (lower candidate).data (lower query).data) = none from h]

/-- When the substring pass succeeds, `is_match` returns its result. -/
lemma is_match_of_substring {query : String} {candidates : List String} {c : String}
    (h : firstSubstringMatch query candidates = some c) :
    is_match query candidates = some c := by
  simp only [is_match]
  rw [show (candidates.find? fun candidate =>
    containsSub (lower candidate).data (lower query).data) = some c from h]

/-- A list contains itself as a substring. -/
lemma containsSub_self (l : List Char) : containsSub l l = true := by
  cases l with
  | nil => rfl
  | cons c t =>
    unfold containsSub
    rw [Bool.or_eq_true]
    exact Or.inl (by rw [List.isPrefixOf_iff_prefix])

/-- Whatever `is_match` returns is an element of the candidate list. -/
lemma is_match_mem {query : String} {candidates : List String} {c : String}
    (h : is_match query candidates = some c) : c ∈ candidates := by
  cases hf : firstSubstringMatch query candidates with
  | some d =>
    rw [is_match_of_substring hf] at h
    cases h
    exact List.mem_of_find?_eq_some hf
  | none =>
    rw [is_match_of_no_substring hf] at h
    rcases fuzzyFold_characterize (lower query) candidates none (0, 1) (by norm_num) with
      ⟨heq, _⟩ | ⟨c', pre, post, hsplit, heq, _, _, _, _⟩
    · rw [heq] at h; cases h
    · rw [heq] at h
      cases h
      rw [hsplit]
      exact List.mem_append_right _ (List.mem_cons_self _ _)

/-!
Lemmas about the navigator.
-/

lemma levelStep_none (t : DataTree) (m : String) (next : DataTree → Except PyErr String) :
    levelStep t none m next = .ok (String.intercalate "\n" (keysOf t)) := rfl

lemma levelStep_resolve {t t' : DataTree} {q k : String} (m : String)
    (next : DataTree → Except PyErr String)
    (hm : is_match q (keysOf t) = some k) (hl : lookupT t k = some t') :
    levelStep t (some q) m next = next t' := by
  simp only [levelStep, hm, hl]

lemma levelStep_fail {t : DataTree} {q : String} (m : String)
    (next : DataTree → Except PyErr String)
    (hm : is_match q (keysOf t) = none) :
    levelStep t (some q) m next = .ok m := by
  simp only [levelStep, hm]

/-- With a loaded cache, `get_level_options` always reaches the level walk:
the cache check returns either `True` or the non-empty no-data string, and
both are truthy, so the `if not check_cefi_data_cache()` guard never fires. -/
lemma get_level_options_loaded (t : DataTree) (lr : Option DataTree)
    (region subdomain experiment_type output_frequency grid_type release_date
      variable_catagory : Option String) :
    get_level_options (some t) lr region subdomain experiment_type output_frequency
        grid_type release_date variable_catagory =
      (levelStep t region "No matching region found." fun t1 =>
       levelStep t1 subdomain "No matching subdomain found." fun t2 =>
       levelStep t2 experiment_type "No matching experiment type found." fun t3 =>
       levelStep t3 output_frequency "No matching output frequency found." fun t4 =>
       levelStep t4 grid_type "No matching grid type found." fun t5 =>
       levelStep t5 release_date "No matching release date found." fun t6 =>
       levelStep t6 variable_catagory "No matching variable category found." fun t7 =>
       .ok (String.intercalate "\n" (keysOf t7))) := by
  have h1 : retFalsy (CheckRet.str noDataMsg) = false := rfl
  have h2 : retFalsy CheckRet.pyTrue = false := rfl
  unfold get_level_options check_cefi_data_cache
  by_cases h : treeFalsy t <;> simp [h, h1, h2]

/-!
Lemmas about the crawler.
-/

/-- The visited set only grows. -/
lemma recurse_visited_subset (fetch : String → Option CatalogDoc)
    (join : String → String → String) :
    ∀ (fuel : Nat) (url : String) (st : CrawlState),
      st.visited ⊆ (recurse fetch join fuel url st).visited := by
  intro fuel
  induction fuel with
  | zero => intro url st a ha; exact ha
  | succ fuel IH =>
    intro url st
    rw [recurse]
    by_cases hv : url ∈ st.visited
    · rw [if_pos hv]; exact fun a ha => ha
    · rw [if_neg hv]
      cases hf : fetch url with
      | none => exact fun a ha => List.mem_cons_of_mem _ ha
      | some doc =>
        dsimp only
        have base : st.visited ⊆ (recordState join url doc (visitState url st)).visited := by
          unfold recordState visitState
          split <;> exact fun a ha => List.mem_cons_of_mem _ ha
        refine List.foldlRecOn (motive := fun (s : CrawlState) => st.visited ⊆ s.visited) doc.refs _ _ base ?_
        intro s hs href _
        by_cases he : href.isEmpty
        · rw [if_pos he]; exact hs
        · rw [if_neg he]; exact hs.trans (IH (join url href) s)

/-- The result mapping is, at every point of the crawl, exactly the fetch log
filtered through `entryOf`: each fetched catalog contributes its entry (if
any) in fetch order. -/
lemma recurse_resultInv (fetch : String → Option CatalogDoc)
    (join : String → String → String) :
    ∀ (fuel : Nat) (url : String) (st : CrawlState),
      st.result = st.fetched.filterMap (entryOf fetch join) →
      (recurse fetch join fuel url st).result =
        (recurse fetch join fuel url st).fetched.filterMap (entryOf fetch join) := by
  intro fuel
  induction fuel with
  | zero => intro url st h; exact h
  | succ fuel IH =>
    intro url st h
    rw [recurse]
    by_cases hv : url ∈ st.visited
    · rw [if_pos hv]; exact h
    · rw [if_neg hv]
      cases hf : fetch url with
      | none =>
        show st.result = (st.fetched ++ [url]).filterMap (entryOf fetch join)
        rw [List.filterMap_append, h]
        simp [entryOf, hf]
      | some doc =>
        dsimp only
        have base : (recordState join url doc (visitState url st)).result =
            (recordState join url doc (visitState url st)).fetched.filterMap
              (entryOf fetch join) := by
          unfold recordState visitState
          by_cases hnc : (ncUrlsOf join doc).isEmpty
          · rw [if_pos hnc]
            show st.result = (st.fetched ++ [url]).filterMap (entryOf fetch join)
            rw [List.filterMap_append, h]
            simp [entryOf, hf, hnc]
          · rw [if_neg hnc]
            show st.result ++ [(htmlOf url, ncUrlsOf join doc)] =
              (st.fetched ++ [url]).filterMap (entryOf fetch join)
            rw [List.filterMap_append, h]
            simp [entryOf, hf, hnc]
        refine List.foldlRecOn
          (motive := fun (s : CrawlState) => s.result = s.fetched.filterMap (entryOf fetch join))
          doc.refs _ _ base ?_
        intro s hs href _
        by_cases he : href.isEmpty
        · rw [if_pos he]; exact hs
        · rw [if_neg he]; exact IH (join url href) s hs

/-- The fetch log has no duplicates and only contains visited URLs: the
visited-set check prevents a second fetch of any URL. -/
lemma recurse_fetchedInv (fetch : String → Option CatalogDoc)
    (join : String → String → String) :
    ∀ (fuel : Nat) (url : String) (st : CrawlState),
      st.fetched.Nodup → (∀ u ∈ st.fetched, u ∈ st.visited) →
      (recurse fetch join fuel url st).fetched.Nodup ∧
        ∀ u ∈ (recurse fetch join fuel url st).fetched,
          u ∈ (recurse fetch join fuel url st).visited := by
  intro fuel
  induction fuel with
  | zero => intro url st h1 h2; exact ⟨h1, h2⟩
  | succ fuel IH =>
    intro url st h1 h2
    rw [recurse]
    by_cases hv : url ∈ st.visited
    · rw [if_pos hv]; exact ⟨h1, h2⟩
    · rw [if_neg hv]
      have hnf : url ∉ st.fetched := fun hm => hv (h2 url hm)
      have hfet : (st.fetched ++ [url]).Nodup := by
        rw [List.nodup_append]
        exact ⟨h1, List.nodup_singleton url, List.disjoint_singleton.mpr hnf⟩
      have hvis : ∀ u ∈ st.fetched ++ [url], u ∈ url :: st.visited := by
        intro u hu
        rcases List.mem_append.mp hu with hu | hu
        · exact List.mem_cons_of_mem _ (h2 u hu)
        · rw [List.mem_singleton] at hu
          subst hu
          exact List.mem_cons_self _ _
      cases hf : fetch url with
      | none => exact ⟨hfet, hvis⟩
      | some doc =>
        dsimp only
        have base : (recordState join url doc (visitState url st)).fetched.Nodup ∧
            ∀ u ∈ (recordState join url doc (visitState url st)).fetched,
              u ∈ (recordState join url doc (visitState url st)).visited := by
          unfold recordState visitState
          split
          · exact ⟨hfet, hvis⟩
          · exact ⟨hfet, hvis⟩
        refine List.foldlRecOn
          (motive := fun (s : CrawlState) => s.fetched.Nodup ∧ ∀ u ∈ s.fetched, u ∈ s.visited)
          doc.refs _ _ base ?_
        intro s hs href _
        by_cases he : href.isEmpty
        · rw [if_pos he]; exact hs
        · rw [if_neg he]; exact IH (join url href) s hs.1 hs.2

/-- A larger visited set leaves at most as many unvisited universe URLs. -/
lemma unvis_mono (allUrls : List String) {st st' : CrawlState}
    (h : st.visited ⊆ st'.visited) : unvis allUrls st' ≤ unvis allUrls st := by
  refine List.Sublist.length_le (List.monotone_filter_right _ ?_)
  intro u hu
  rw [decide_eq_true_eq] at hu ⊢
  exact fun hm => hu (h hm)

/-- Visiting an unvisited universe URL strictly shrinks the unvisited count. -/
lemma unvis_visit_lt (allUrls : List String) {url : String} (st : CrawlState)
    (hmem : url ∈ allUrls) (hv : url ∉ st.visited) :
    unvis allUrls (visitState url st) < unvis allUrls st := by
  have himp : ∀ u, (fun u => decide (u ∉ (visitState url st).visited)) u = true →
      (fun u => decide (u ∉ st.visited)) u = true := by
    intro u hu
    rw [decide_eq_true_eq] at hu ⊢
    exact fun hm => hu (List.mem_cons_of_mem _ hm)
  have hsub := List.monotone_filter_right allUrls himp
  refine lt_of_le_of_ne (List.Sublist.length_le hsub) ?_
  intro heq
  have hfeq := hsub.eq_of_length heq
  have hmemf : url ∈ allUrls.filter (fun u => decide (u ∉ st.visited)) := by
    rw [List.mem_filter]
    exact ⟨hmem, by simpa using hv⟩
  rw [← hfeq, List.mem_filter, decide_eq_true_eq] at hmemf
  exact hmemf.2 (List.mem_cons_self _ _)

/-- Once the fuel exceeds the number of unvisited universe URLs, the crawl no
longer depends on it: the recursion terminates with a fuel-independent state.
`hclosed` says the universe is closed under following non-empty hrefs. -/
lemma recurse_fuel_stable (fetch : String → Option CatalogDoc)
    (join : String → String → String) (allUrls : List String)
    (hclosed : ∀ u ∈ allUrls, ∀ doc, fetch u = some doc →
      ∀ href ∈ doc.refs, href.isEmpty = false → join u href ∈ allUrls) :
    ∀ (f1 f2 : Nat) (url : String) (st : CrawlState), url ∈ allUrls →
      unvis allUrls st < f1 → unvis allUrls st < f2 →
      recurse fetch join f1 url st = recurse fetch join f2 url st := by
  intro f1
  induction f1 with
  | zero => intro f2 url st _ h1 _; exact absurd h1 (Nat.not_lt_zero _)
  | succ f1 IH =>
    intro f2 url st hmem h1 h2
    obtain ⟨f2', rfl⟩ : ∃ f2', f2 = f2' + 1 := by
      cases f2 with
      | zero => exact absurd h2 (Nat.not_lt_zero _)
      | succ n => exact ⟨n, rfl⟩
    rw [recurse, recurse]
    by_cases hv : url ∈ st.visited
    · rw [if_pos hv, if_pos hv]
    · rw [if_neg hv, if_neg hv]
      cases hf : fetch url with
      | none => rfl
      | some doc =>
        dsimp only
        have hvst : unvis allUrls (visitState url st) < unvis allUrls st :=
          unvis_visit_lt allUrls st hmem hv
        have hrec : (recordState join url doc (visitState url st)).visited =
            (visitState url st).visited := by
          unfold recordState
          split <;> rfl
        have key : ∀ (hs : List String) (s : CrawlState),
            (∀ href ∈ hs, href.isEmpty = false → join url href ∈ allUrls) →
            (visitState url st).visited ⊆ s.visited →
            hs.foldl (fun s href => if href.isEmpty then s
              else recurse fetch join f1 (join url href) s) s =
            hs.foldl (fun s href => if href.isEmpty then s
              else recurse fetch join f2' (join url href) s) s := by
          intro hs
          induction hs with
          | nil => intro s _ _; rfl
          | cons href rest IHr =>
            intro s hcl hsub
            rw [List.foldl_cons, List.foldl_cons]
            by_cases he : href.isEmpty
            · rw [if_pos he, if_pos he]
              exact IHr s (fun d hd hne => hcl d (List.mem_cons_of_mem _ hd) hne) hsub
            · rw [if_neg he, if_neg he]
              have hjoin : join url href ∈ allUrls :=
                hcl href (List.mem_cons_self _ _) (by simpa using he)
              have hsI : unvis allUrls s ≤ unvis allUrls (visitState url st) :=
                unvis_mono allUrls hsub
              have hlt1 : unvis allUrls s < f1 := by omega
              have hlt2 : unvis allUrls s < f2' := by omega
              have heq := IH f2' (join url href) s hjoin hlt1 hlt2
              rw [heq]
              refine IHr _ (fun d hd hne => hcl d (List.mem_cons_of_mem _ hd) hne) ?_
              exact hsub.trans (recurse_visited_subset fetch join f2' (join url href) s)
        exact key doc.refs (recordState join url doc (visitState url st))
          (fun href hd hne => hclosed url hmem doc hf href hd hne)
          (by rw [hrec]; exact fun a ha => ha)

/-!
Claim theorems.
-/

/-- C1: the matcher first returns the first candidate, in candidate iteration
order, whose lowercased form contains the lowercased query as a substring;
only if no candidate passes that test does it compute a normalized similarity
ratio between the lowercased query and each lowercased candidate, returning
the candidate with the strictly highest ratio exceeding 0.6, where ties keep
the first-seen maximum because the comparison is strict; if neither step
yields a candidate it returns the no-match sentinel `none`. -/
theorem is_match_resolves_per_spec (query : String) (candidates : List String) :
    (∀ c, firstSubstringMatch query candidates = some c →
      is_match query candidates = some c) ∧
    (firstSubstringMatch query candidates = none →
      (∀ c, is_match query candidates = some c ↔ fuzzyChosen query candidates c) ∧
      (is_match query candidates = none ↔
        ∀ c ∈ candidates, ratioQ (lower query) (lower c) ≤ fuzzyThreshold)) := by
  refine ⟨fun c h => is_match_of_substring h, fun hnone => ⟨?_, ?_⟩⟩
  · intro c
    rw [is_match_of_no_substring hnone]
    constructor
    · intro h
      rcases fuzzyFold_characterize (lower query) candidates none (0, 1) (by norm_num) with
        ⟨heq, _⟩ | ⟨c', pre, post, hsplit, heq, h1, h2, h3, h4⟩
      · rw [heq] at h; cases h
      · rw [heq] at h
        cases h
        exact ⟨h1, pre, post, hsplit, h3, h4⟩
    · rintro ⟨h1, pre, post, rfl, h3, h4⟩
      rw [fuzzyFold_picks (lower query) c pre post h1 h3 h4]
  · rw [is_match_of_no_substring hnone]
    constructor
    · intro h
      rcases fuzzyFold_characterize (lower query) candidates none (0, 1) (by norm_num) with
        ⟨heq, hall⟩ | ⟨c', pre, post, hsplit, heq, h1, h2, h3, h4⟩
      · intro c hc
        by_contra hlt
        rw [not_le] at hlt
        have h0 : ratioVal ((0 : Nat), (1 : Nat)) < rv (lower query) c := by
          rw [ratioVal_zero]; exact lt_trans fuzzyThreshold_pos hlt
        exact hall c hc ⟨hlt, h0⟩
      · rw [heq] at h; cases h
    · intro hall
      rw [fuzzyFold_skip (lower query) candidates none (0, 1) (by norm_num)
        (fun d hd => Or.inl (hall d hd))]

/-- Witness for C1: a substring hit ("atl" matches "Atlantic") and a fuzzy hit
("atlantik" fuzzy-matches "Atlantic" with ratio 14/16 > 0.6). -/
theorem is_match_resolves_per_spec_witness :
    is_match "atl" ["Atlantic", "Pacific"] = some "Atlantic" ∧
    is_match "atlantik" ["Atlantic", "Pacific"] = some "Atlantic" := by
  constructor
  · exact (is_match_resolves_per_spec "atl" ["Atlantic", "Pacific"]).1 "Atlantic" (by decide)
  · refine (((is_match_resolves_per_spec "atlantik" ["Atlantic", "Pacific"]).2
      (by decide)).1 "Atlantic").mpr ?_
    refine ⟨?_, [], ["Pacific"], rfl, by simp, ?_⟩
    · have h2 : ratioPair (lower "atlantik") (lower "Atlantic") = (14, 16) := by decide
      rw [ratioQ, h2]
      norm_num [ratioVal, fuzzyThreshold]
    · intro d hd
      rw [List.mem_singleton] at hd
      subst hd
      have h1 : ratioPair (lower "atlantik") (lower "Pacific") = (4, 15) := by decide
      have h2 : ratioPair (lower "atlantik") (lower "Atlantic") = (14, 16) := by decide
      rw [ratioQ, ratioQ, h1, h2]
      norm_num [ratioVal]

/-- C8 counterexample: "ab" is an exact case-variant of the candidate "AB",
yet the matcher returns "abc", because an earlier candidate already contains
the query as a substring; so an exact case-variant is not always returned. -/
theorem is_match_case_variant_counterexample :
    is_match "ab" ["abc", "AB"] = some "abc" ∧
    lower "ab" = lower "AB" ∧ ("abc" : String) ≠ "AB" := by
  refine ⟨rfl, rfl, ?_⟩
  decide

/-- C8 (amended): when the query is an exact case-variant of some candidate,
the substring pass necessarily succeeds — a string contains itself as a
substring — so the matcher returns the first substring-matching candidate and
never the no-match sentinel; that candidate is the case-variant itself
whenever no earlier candidate contains the query. -/
theorem is_match_case_variant (query : String) (candidates : List String) (c : String)
    (hc : c ∈ candidates) (hq : lower query = lower c) :
    ∃ d, firstSubstringMatch query candidates = some d ∧
      is_match query candidates = some d := by
  have hp : containsSub (lower c).data (lower query).data = true := by
    rw [hq]; exact containsSub_self _
  have hsome : (candidates.find? (fun candidate =>
      containsSub (lower candidate).data (lower query).data)).isSome = true :=
    List.find?_isSome.mpr ⟨c, hc, hp⟩
  obtain ⟨d, hd⟩ := Option.isSome_iff_exists.mp hsome
  exact ⟨d, hd, is_match_of_substring hd⟩

/-- Witness for C8 (amended) at a concrete case-variant query. -/
theorem is_match_case_variant_witness :
    ∃ d, firstSubstringMatch "ATLANTIC" ["Atlantic"] = some d ∧
      is_match "ATLANTIC" ["Atlantic"] = some d :=
  is_match_case_variant "ATLANTIC" ["Atlantic"] "Atlantic" (by decide) (by decide)

/-- C9: the matcher returns either the sentinel `none` or one of the candidate
strings exactly as stored in the candidate list. -/
theorem is_match_result_in_candidates (query : String) (candidates : List String)
    (c : String) (h : is_match query candidates = some c) : c ∈ candidates :=
  is_match_mem h

/-- Witness for C9 at a concrete query. -/
theorem is_match_result_in_candidates_witness :
    is_match "atl" ["Atlantic", "Pacific"] = some "Atlantic" ∧
      "Atlantic" ∈ ["Atlantic", "Pacific"] :=
  ⟨rfl, is_match_result_in_candidates "atl" ["Atlantic", "Pacific"] "Atlantic" rfl⟩

/-- C2 (code-bug exhibit): when the remote tree load fails —
`load_cefi_data_tree` returns `None` — `check_cefi_data_cache` subscripts
`None` with `['Projects']`, so every navigator query raises `TypeError`
instead of returning the "no data available" sentinel string. -/
theorem navigator_absent_tree_raises :
    (∀ region subdomain experiment_type output_frequency grid_type release_date
        variable_catagory : Option String,
      get_level_options none none region subdomain experiment_type output_frequency
        grid_type release_date variable_catagory = .error .typeError) ∧
    get_level_name none none = .error .typeError :=
  ⟨fun _ _ _ _ _ _ _ => rfl, rfl⟩

/-- C3: with a loaded tree, the first `None` level argument halts the descent:
the navigator returns the newline-joined keys at that level under the
already-resolved shallower keys, and every deeper argument — universally
quantified on the left, absent on the right — is ignored. -/
theorem get_level_options_first_none_halts :
    (∀ (t : DataTree) (lr : Option DataTree) (d2 d3 d4 d5 d6 d7 : Option String),
      get_level_options (some t) lr none d2 d3 d4 d5 d6 d7 =
        .ok (String.intercalate "\n" (keysOf t))) ∧
    (∀ (t t1 : DataTree) (lr : Option DataTree) (q1 k1 : String)
        (d3 d4 d5 d6 d7 : Option String),
      is_match q1 (keysOf t) = some k1 → lookupT t k1 = some t1 →
      get_level_options (some t) lr (some q1) none d3 d4 d5 d6 d7 =
        .ok (String.intercalate "\n" (keysOf t1))) ∧
    (∀ (t t1 t2 : DataTree) (lr : Option DataTree) (q1 k1 q2 k2 : String)
        (d4 d5 d6 d7 : Option String),
      is_match q1 (keysOf t) = some k1 → lookupT t k1 = some t1 →
      is_match q2 (keysOf t1) = some k2 → lookupT t1 k2 = some t2 →
      get_level_options (some t) lr (some q1) (some q2) none d4 d5 d6 d7 =
        .ok (String.intercalate "\n" (keysOf t2))) ∧
    (∀ (t t1 t2 t3 : DataTree) (lr : Option DataTree) (q1 k1 q2 k2 q3 k3 : String)
        (d5 d6 d7 : Option String),
      is_match q1 (keysOf t) = some k1 → lookupT t k1 = some t1 →
      is_match q2 (keysOf t1) = some k2 → lookupT t1 k2 = some t2 →
      is_match q3 (keysOf t2) = some k3 → lookupT t2 k3 = some t3 →
      get_level_options (some t) lr (some q1) (some q2) (some q3) none d5 d6 d7 =
        .ok (String.intercalate "\n" (keysOf t3))) ∧
    (∀ (t t1 t2 t3 t4 : DataTree) (lr : Option DataTree)
        (q1 k1 q2 k2 q3 k3 q4 k4 : String) (d6 d7 : Option String),
      is_match q1 (keysOf t) = some k1 → lookupT t k1 = some t1 →
      is_match q2 (keysOf t1) = some k2 → lookupT t1 k2 = some t2 →
      is_match q3 (keysOf t2) = some k3 → lookupT t2 k3 = some t3 →
      is_match q4 (keysOf t3) = some k4 → lookupT t3 k4 = some t4 →
      get_level_options (some t) lr (some q1) (some q2) (some q3) (some q4) none d6 d7 =
        .ok (String.intercalate "\n" (keysOf t4))) ∧
    (∀ (t t1 t2 t3 t4 t5 : DataTree) (lr : Option DataTree)
        (q1 k1 q2 k2 q3 k3 q4 k4 q5 k5 : String) (d7 : Option String),
      is_match q1 (keysOf t) = some k1 → lookupT t k1 = some t1 →
      is_match q2 (keysOf t1) = some k2 → lookupT t1 k2 = some t2 →
      is_match q3 (keysOf t2) = some k3 → lookupT t2 k3 = some t3 →
      is_match q4 (keysOf t3) = some k4 → lookupT t3 k4 = some t4 →
      is_match q5 (keysOf t4) = some k5 → lookupT t4 k5 = some t5 →
      get_level_options (some t) lr (some q1) (some q2) (some q3) (some q4) (some q5)
        none d7 = .ok (String.intercalate "\n" (keysOf t5))) ∧
    (∀ (t t1 t2 t3 t4 t5 t6 : DataTree) (lr : Option DataTree)
        (q1 k1 q2 k2 q3 k3 q4 k4 q5 k5 q6 k6 : String),
      is_match q1 (keysOf t) = some k1 → lookupT t k1 = some t1 →
      is_match q2 (keysOf t1) = some k2 → lookupT t1 k2 = some t2 →
      is_match q3 (keysOf t2) = some k3 → lookupT t2 k3 = some t3 →
      is_match q4 (keysOf t3) = some k4 → lookupT t3 k4 = some t4 →
      is_match q5 (keysOf t4) = some k5 → lookupT t4 k5 = some t5 →
      is_match q6 (keysOf t5) = some k6 → lookupT t5 k6 = some t6 →
      get_level_options (some t) lr (some q1) (some q2) (some q3) (some q4) (some q5)
        (some q6) none = .ok (String.intercalate "\n" (keysOf t6))) := by
  refine ⟨?_, ?_, ?_, ?_, ?_, ?_, ?_⟩
  · intro t lr d2 d3 d4 d5 d6 d7
    rw [get_level_options_loaded, levelStep_none]
  · intro t t1 lr q1 k1 d3 d4 d5 d6 d7 h1 h1l
    rw [get_level_options_loaded, levelStep_resolve _ _ h1 h1l, levelStep_none]
  · intro t t1 t2 lr q1 k1 q2 k2 d4 d5 d6 d7 h1 h1l h2 h2l
    rw [get_level_options_loaded, levelStep_resolve _ _ h1 h1l,
      levelStep_resolve _ _ h2 h2l, levelStep_none]
  · intro t t1 t2 t3 lr q1 k1 q2 k2 q3 k3 d5 d6 d7 h1 h1l h2 h2l h3 h3l
    rw [get_level_options_loaded, levelStep_resolve _ _ h1 h1l,
      levelStep_resolve _ _ h2 h2l, levelStep_resolve _ _ h3 h3l, levelStep_none]
  · intro t t1 t2 t3 t4 lr q1 k1 q2 k2 q3 k3 q4 k4 d6 d7 h1 h1l h2 h2l h3 h3l h4 h4l
    rw [get_level_options_loaded, levelStep_resolve _ _ h1 h1l,
      levelStep_resolve _ _ h2 h2l, levelStep_resolve _ _ h3 h3l,
      levelStep_resolve _ _ h4 h4l, levelStep_none]
  · intro t t1 t2 t3 t4 t5 lr q1 k1 q2 k2 q3 k3 q4 k4 q5 k5 d7
      h1 h1l h2 h2l h3 h3l h4 h4l h5 h5l
    rw [get_level_options_loaded, levelStep_resolve _ _ h1 h1l,
      levelStep_resolve _ _ h2 h2l, levelStep_resolve _ _ h3 h3l,
      levelStep_resolve _ _ h4 h4l, levelStep_resolve _ _ h5 h5l, levelStep_none]
  · intro t t1 t2 t3 t4 t5 t6 lr q1 k1 q2 k2 q3 k3 q4 k4 q5 k5 q6 k6
      h1 h1l h2 h2l h3 h3l h4 h4l h5 h5l h6 h6l
    rw [get_level_options_loaded, levelStep_resolve _ _ h1 h1l,
      levelStep_resolve _ _ h2 h2l, levelStep_resolve _ _ h3 h3l,
      levelStep_resolve _ _ h4 h4l, levelStep_resolve _ _ h5 h5l,
      levelStep_resolve _ _ h6 h6l, levelStep_none]

/-- Witness for C3: the region resolves ("atl" → "Atlantic"), the subdomain
argument is `None`, and the non-`None` deeper arguments are ignored. -/
theorem get_level_options_first_none_halts_witness :
    get_level_options (some wTree) none (some "atl") none (some "zzz") (some "zzz")
      none none none = .ok "NWA" :=
  get_level_options_first_none_halts.2.1 wTree
    (DataTree.node [("NWA", DataTree.node [("hindcast", DataTree.node [])])]) none
    "atl" "Atlantic" (some "zzz") (some "zzz") none none none rfl rfl

/-- C4: with a loaded tree, a supplied level selector that fails to match any
key at its level makes the navigator return the "no matching <level-name>
found" string for that level — a string result, not an exception. -/
theorem get_level_options_no_match_message :
    (∀ (t : DataTree) (lr : Option DataTree) (q1 : String)
        (d2 d3 d4 d5 d6 d7 : Option String),
      is_match q1 (keysOf t) = none →
      get_level_options (some t) lr (some q1) d2 d3 d4 d5 d6 d7 =
        .ok "No matching region found.") ∧
    (∀ (t t1 : DataTree) (lr : Option DataTree) (q1 k1 q2 : String)
        (d3 d4 d5 d6 d7 : Option String),
      is_match q1 (keysOf t) = some k1 → lookupT t k1 = some t1 →
      is_match q2 (keysOf t1) = none →
      get_level_options (some t) lr (some q1) (some q2) d3 d4 d5 d6 d7 =
        .ok "No matching subdomain found.") ∧
    (∀ (t t1 t2 : DataTree) (lr : Option DataTree) (q1 k1 q2 k2 q3 : String)
        (d4 d5 d6 d7 : Option String),
      is_match q1 (keysOf t) = some k1 → lookupT t k1 = some t1 →
      is_match q2 (keysOf t1) = some k2 → lookupT t1 k2 = some t2 →
      is_match q3 (keysOf t2) = none →
      get_level_options (some t) lr (some q1) (some q2) (some q3) d4 d5 d6 d7 =
        .ok "No matching experiment type found.") ∧
    (∀ (t t1 t2 t3 : DataTree) (lr : Option DataTree) (q1 k1 q2 k2 q3 k3 q4 : String)
        (d5 d6 d7 : Option String),
      is_match q1 (keysOf t) = some k1 → lookupT t k1 = some t1 →
      is_match q2 (keysOf t1) = some k2 → lookupT t1 k2 = some t2 →
      is_match q3 (keysOf t2) = some k3 → lookupT t2 k3 = some t3 →
      is_match q4 (keysOf t3) = none →
      get_level_options (some t) lr (some q1) (some q2) (some q3) (some q4) d5 d6 d7 =
        .ok "No matching output frequency found.") ∧
    (∀ (t t1 t2 t3 t4 : DataTree) (lr : Option DataTree)
        (q1 k1 q2 k2 q3 k3 q4 k4 q5 : String) (d6 d7 : Option String),
      is_match q1 (keysOf t) = some k1 → lookupT t k1 = some t1 →
      is_match q2 (keysOf t1) = some k2 → lookupT t1 k2 = some t2 →
      is_match q3 (keysOf t2) = some k3 → lookupT t2 k3 = some t3 →
      is_match q4 (keysOf t3) = some k4 → lookupT t3 k4 = some t4 →
      is_match q5 (keysOf t4) = none →
      get_level_options (some t) lr (some q1) (some q2) (some q3) (some q4) (some q5)
        d6 d7 = .ok "No matching grid type found.") ∧
    (∀ (t t1 t2 t3 t4 t5 : DataTree) (lr : Option DataTree)
        (q1 k1 q2 k2 q3 k3 q4 k4 q5 k5 q6 : String) (d7 : Option String),
      is_match q1 (keysOf t) = some k1 → lookupT t k1 = some t1 →
      is_match q2 (keysOf t1) = some k2 → lookupT t1 k2 = some t2 →
      is_match q3 (keysOf t2) = some k3 → lookupT t2 k3 = some t3 →
      is_match q4 (keysOf t3) = some k4 → lookupT t3 k4 = some t4 →
      is_match q5 (keysOf t4) = some k5 → lookupT t4 k5 = some t5 →
      is_match q6 (keysOf t5) = none →
      get_level_options (some t) lr (some q1) (some q2) (some q3) (some q4) (some q5)
        (some q6) d7 = .ok "No matching release date found.") ∧
    (∀ (t t1 t2 t3 t4 t5 t6 : DataTree) (lr : Option DataTree)
        (q1 k1 q2 k2 q3 k3 q4 k4 q5 k5 q6 k6 q7 : String),
      is_match q1 (keysOf t) = some k1 → lookupT t k1 = some t1 →
      is_match q2 (keysOf t1) = some k2 → lookupT t1 k2 = some t2 →
      is_match q3 (keysOf t2) = some k3 → lookupT t2 k3 = some t3 →
      is_match q4 (keysOf t3) = some k4 → lookupT t3 k4 = some t4 →
      is_match q5 (keysOf t4) = some k5 → lookupT t4 k5 = some t5 →
      is_match q6 (keysOf t5) = some k6 → lookupT t5 k6 = some t6 →
      is_match q7 (keysOf t6) = none →
      get_level_options (some t) lr (some q1) (some q2) (some q3) (some q4) (some q5)
        (some q6) (some q7) = .ok "No matching variable category found.") := by
  refine ⟨?_, ?_, ?_, ?_, ?_, ?_, ?_⟩
  · intro t lr q1 d2 d3 d4 d5 d6 d7 h1
    rw [get_level_options_loaded, levelStep_fail _ _ h1]
  · intro t t1 lr q1 k1 q2 d3 d4 d5 d6 d7 h1 h1l h2
    rw [get_level_options_loaded, levelStep_resolve _ _ h1 h1l, levelStep_fail _ _ h2]
  · intro t t1 t2 lr q1 k1 q2 k2 q3 d4 d5 d6 d7 h1 h1l h2 h2l h3
    rw [get_level_options_loaded, levelStep_resolve _ _ h1 h1l,
      levelStep_resolve _ _ h2 h2l, levelStep_fail _ _ h3]
  · intro t t1 t2 t3 lr q1 k1 q2 k2 q3 k3 q4 d5 d6 d7 h1 h1l h2 h2l h3 h3l h4
    rw [get_level_options_loaded, levelStep_resolve _ _ h1 h1l,
      levelStep_resolve _ _ h2 h2l, levelStep_resolve _ _ h3 h3l, levelStep_fail _ _ h4]
  · intro t t1 t2 t3 t4 lr q1 k1 q2 k2 q3 k3 q4 k4 q5 d6 d7
      h1 h1l h2 h2l h3 h3l h4 h4l h5
    rw [get_level_options_loaded, levelStep_resolve _ _ h1 h1l,
      levelStep_resolve _ _ h2 h2l, levelStep_resolve _ _ h3 h3l,
      levelStep_resolve _ _ h4 h4l, levelStep_fail _ _ h5]
  · intro t t1 t2 t3 t4 t5 lr q1 k1 q2 k2 q3 k3 q4 k4 q5 k5 q6 d7
      h1 h1l h2 h2l h3 h3l h4 h4l h5 h5l h6
    rw [get_level_options_loaded, levelStep_resolve _ _ h1 h1l,
      levelStep_resolve _ _ h2 h2l, levelStep_resolve _ _ h3 h3l,
      levelStep_resolve _ _ h4 h4l, levelStep_resolve _ _ h5 h5l, levelStep_fail _ _ h6]
  · intro t t1 t2 t3 t4 t5 t6 lr q1 k1 q2 k2 q3 k3 q4 k4 q5 k5 q6 k6 q7
      h1 h1l h2 h2l h3 h3l h4 h4l h5 h5l h6 h6l h7
    rw [get_level_options_loaded, levelStep_resolve _ _ h1 h1l,
      levelStep_resolve _ _ h2 h2l, levelStep_resolve _ _ h3 h3l,
      levelStep_resolve _ _ h4 h4l, levelStep_resolve _ _ h5 h5l,
      levelStep_resolve _ _ h6 h6l, levelStep_fail _ _ h7]

/-- Witness for C4: a region selector with no substring and no fuzzy overlap
produces the "No matching region found." string. -/
theorem get_level_options_no_match_message_witness :
    get_level_options (some wTree) none (some "qqqq") none none none none none none =
      .ok "No matching region found." :=
  get_level_options_no_match_message.1 wTree none "qqqq" none none none none none none
    (by decide)

/-- C5 counterexample: with a loaded tree, `get_subdomain_options` on an
unmatched region raises `KeyError` — a native exception that escapes a tool
function and is not the validation `ValueError` of `get_available_data`. -/
theorem get_subdomain_options_keyerror_escape :
    get_subdomain_options (some wTree) "bogus" = .error .keyError ∧
      PyErr.keyError ≠ PyErr.valueError :=
  ⟨rfl, by decide⟩

/-- C5 (amended): `get_available_data` raises exactly the validation
`ValueError`, and does so iff all three source arguments are falsy (absent or
empty); its own data-source helpers swallow their failures.  But the no-escape
policy does not extend to the whole tool surface: `get_subdomain_options`
propagates a native `KeyError` exactly when the supplied region is not a key
of the loaded tree. -/
theorem get_available_data_error_policy :
    (∀ (α : Type) (od s3f gcsf : String → Option α)
        (o s g : Option String) (e : PyErr),
      get_available_data od s3f gcsf o s g = .error e ↔
        (e = .valueError ∧ strFalsy o = true ∧ strFalsy s = true ∧ strFalsy g = true)) ∧
    (∀ (t : DataTree) (region : String),
      (∃ e, get_subdomain_options (some t) region = .error e) ↔
        lookupT t region = none) := by
  constructor
  · intro α od s3f gcsf o s g e
    unfold get_available_data
    by_cases h : (strFalsy o && strFalsy s && strFalsy g) = true
    · rw [if_pos h]
      rw [Bool.and_eq_true, Bool.and_eq_true] at h
      constructor
      · intro he
        injection he with he
        subst he
        exact ⟨rfl, h.1.1, h.1.2, h.2⟩
      · rintro ⟨rfl, _, _, _⟩
        rfl
    · rw [if_neg h]
      constructor
      · intro he
        exfalso
        cases o with
        | some url => exact Except.noConfusion he
        | none =>
          cases s with
          | some link => exact Except.noConfusion he
          | none =>
            cases g with
            | some link =>
              dsimp only at he
              by_cases hl : link.isEmpty
              · rw [if_pos hl] at he
                exact Except.noConfusion he
              · rw [if_neg hl] at he
                exact Except.noConfusion he
            | none => exact Except.noConfusion he
      · rintro ⟨rfl, h1, h2, h3⟩
        exact absurd (by rw [h1, h2, h3] ; rfl :
          (strFalsy o && strFalsy s && strFalsy g) = true) h
  · intro t region
    unfold get_subdomain_options
    dsimp only
    cases hl : lookupT t region with
    | none => exact ⟨fun _ => rfl, fun _ => ⟨.keyError, rfl⟩⟩
    | some sub =>
      constructor
      · rintro ⟨e, he⟩
        exact Except.noConfusion he
      · intro h
        exact Option.noConfusion h

/-- C10 counterexample: `opendap_url = ""` is a string, yet with the other two
arguments absent `get_available_data` raises the validation `ValueError`
instead of returning the result of `get_opendap_data("")` (which would be the
`None` dataset for an opener failing on every URL). -/
theorem get_available_data_empty_string_counterexample :
    get_available_data (fun _ => (none : Option Unit)) (fun _ => none) (fun _ => none)
        (some "") none none = .error .valueError ∧
      (Except.error PyErr.valueError ≠
        (Except.ok ((fun (_ : String) => (none : Option Unit)) "") :
          Except PyErr (Option Unit))) :=
  ⟨rfl, fun h => Except.noConfusion h⟩

/-- C10 (amended): whenever `opendap_url` is a string and the validation guard
passes — in particular whenever it is non-empty — `get_available_data` returns
exactly the result of `get_opendap_data(opendap_url)` and never consults the
S3 or GCS readers (they are arbitrary on the left and absent on the right);
that result is the `None` dataset when the OPeNDAP open fails, which is what
the downstream tools then receive. -/
theorem get_available_data_opendap_first (α : Type)
    (od s3f gcsf : String → Option α) (url : String) (s g : Option String)
    (h : url ≠ "" ∨ strFalsy s = false ∨ strFalsy g = false) :
    get_available_data od s3f gcsf (some url) s g = .ok (od url) := by
  unfold get_available_data
  have hc : (strFalsy (some url) && strFalsy s && strFalsy g) = false := by
    rcases h with h | h | h
    · have hurl : strFalsy (some url) = false := by
        show url.isEmpty = false
        rw [Bool.eq_false_iff]
        intro hx
        exact h ((String.isEmpty_iff url).mp hx)
      rw [hurl, Bool.false_and, Bool.false_and]
    · rw [h, Bool.and_false, Bool.false_and]
    · rw [h, Bool.and_false]
  rw [hc]
  rfl

/-- Witness for C10 (amended) at a concrete non-empty URL. -/
theorem get_available_data_opendap_first_witness :
    get_available_data (fun _ => some ()) (fun _ => (none : Option Unit)) (fun _ => none)
        (some "https://psl.noaa.gov/thredds/dodsC/x.nc") none none = .ok (some ()) :=
  get_available_data_opendap_first Unit (fun _ => some ()) (fun _ => none) (fun _ => none)
    "https://psl.noaa.gov/thredds/dodsC/x.nc" none none (Or.inl (by decide))

/-- C6: over any finite URL universe containing the normalized root and closed
under the crawl's href joining, the crawl stabilizes as soon as the fuel
exceeds the universe size — the recursion terminates with a fuel-independent
answer, cyclic reference graphs included — and the visited-set check
guarantees that no URL is ever passed to the fetcher twice: the fetch log has
no duplicates. -/
theorem find_all_files_thredds_terminates_once (fetch : String → Option CatalogDoc)
    (join : String → String → String) (allUrls : List String) (base_catalog_url : String)
    (hroot : normalizeBase base_catalog_url ∈ allUrls)
    (hclosed : ∀ u ∈ allUrls, ∀ doc, fetch u = some doc →
      ∀ href ∈ doc.refs, href.isEmpty = false → join u href ∈ allUrls) :
    (∀ f1 f2, allUrls.length < f1 → allUrls.length < f2 →
      crawlRun fetch join f1 base_catalog_url = crawlRun fetch join f2 base_catalog_url) ∧
    ∀ fuel, (crawlRun fetch join fuel base_catalog_url).fetched.Nodup := by
  constructor
  · intro f1 f2 h1 h2
    have h0 : unvis allUrls (⟨[], [], []⟩ : CrawlState) = allUrls.length := by
      unfold unvis
      congr 1
      apply List.filter_eq_self.mpr
      intro a _
      simp
    unfold crawlRun
    exact recurse_fuel_stable fetch join allUrls hclosed f1 f2 _ _ hroot
      (by rw [h0]; exact h1) (by rw [h0]; exact h2)
  · intro fuel
    exact (recurse_fetchedInv fetch join fuel (normalizeBase base_catalog_url)
      ⟨[], [], []⟩ List.nodup_nil (fun u hu => absurd hu (List.not_mem_nil u))).1

/-- Witness for C6 on the cyclic two-catalog graph A ↔ B. -/
theorem find_all_files_thredds_terminates_once_witness :
    crawlRun fetchAB joinSnd 3 "A/catalog.xml" = crawlRun fetchAB joinSnd 4 "A/catalog.xml" ∧
      (crawlRun fetchAB joinSnd 3 "A/catalog.xml").fetched.Nodup := by
  have hroot : normalizeBase "A/catalog.xml" ∈ urlsAB := by decide
  have hclosed : ∀ u ∈ urlsAB, ∀ doc, fetchAB u = some doc →
      ∀ href ∈ doc.refs, href.isEmpty = false → joinSnd u href ∈ urlsAB := by
    intro u hu doc hdoc href hh _
    simp only [urlsAB, List.mem_cons, List.not_mem_nil, or_false] at hu
    rcases hu with rfl | rfl
    · rw [show fetchAB "A/catalog.xml" = some ⟨["f1.nc"], ["B/catalog.xml"]⟩ from rfl]
        at hdoc
      injection hdoc with hdoc
      subst hdoc
      simp only [List.mem_singleton] at hh
      subst hh
      decide
    · rw [show fetchAB "B/catalog.xml" = some ⟨[], ["A/catalog.xml"]⟩ from rfl] at hdoc
      injection hdoc with hdoc
      subst hdoc
      simp only [List.mem_singleton] at hh
      subst hh
      decide
  have h := find_all_files_thredds_terminates_once fetchAB joinSnd urlsAB
    "A/catalog.xml" hroot hclosed
  exact ⟨h.1 3 4 (by decide) (by decide), h.2 3⟩

/-- C7: the result mapping of `find_all_files_thredds` is exactly the fetch
log filtered to the successfully parsed catalogs with at least one `.nc`
entry: a crawled catalog appears as a key (its catalog page URL) iff some
`urlPath` ends in `.nc`, and its value is the list of access URLs obtained by
URL-joining each qualifying `urlPath` against the fixed access base. -/
theorem find_all_files_thredds_result_iff (fetch : String → Option CatalogDoc)
    (join : String → String → String) (fuel : Nat) (base_catalog_url : String) :
    find_all_files_thredds fetch join fuel base_catalog_url =
      (crawlRun fetch join fuel base_catalog_url).fetched.filterMap (entryOf fetch join) ∧
    ∀ page urls, (page, urls) ∈ find_all_files_thredds fetch join fuel base_catalog_url ↔
      ∃ u ∈ (crawlRun fetch join fuel base_catalog_url).fetched, ∃ doc,
        fetch u = some doc ∧ page = htmlOf u ∧ urls = ncUrlsOf join doc ∧ urls ≠ [] := by
  have h1 : find_all_files_thredds fetch join fuel base_catalog_url =
      (crawlRun fetch join fuel base_catalog_url).fetched.filterMap (entryOf fetch join) :=
    recurse_resultInv fetch join fuel (normalizeBase base_catalog_url) ⟨[], [], []⟩ rfl
  refine ⟨h1, ?_⟩
  intro page urls
  rw [h1, List.mem_filterMap]
  constructor
  · rintro ⟨u, hu, he⟩
    refine ⟨u, hu, ?_⟩
    cases hf : fetch u with
    | none =>
      rw [show entryOf fetch join u = none from by simp [entryOf, hf]] at he
      cases he
    | some doc =>
      by_cases hnc : (ncUrlsOf join doc).isEmpty
      · rw [show entryOf fetch join u = none from by simp [entryOf, hf, hnc]] at he
        cases he
      · rw [show entryOf fetch join u = some (htmlOf u, ncUrlsOf join doc) from by
          simp [entryOf, hf, hnc]] at he
        injection he with he
        rw [Prod.mk.injEq] at he
        obtain ⟨rfl, rfl⟩ := he
        rw [List.isEmpty_iff] at hnc
        exact ⟨doc, rfl, rfl, rfl, hnc⟩
  · rintro ⟨u, hu, doc, hf, rfl, rfl, hne⟩
    refine ⟨u, hu, ?_⟩
    have hnc : (ncUrlsOf join doc).isEmpty = false := by
      rw [List.isEmpty_eq_false]
      exact hne
    simp [entryOf, hf, hnc]
